import Mathlib

/-!
Verification of the sandboxed path-access gateway that is repeated across the
tool servers in this repository: the AllowList parser, the path
resolver/validator, the capacity guard, the rate limiter, the audit recorder
and the gateway facade.

Python strings are modelled at character level (`List Char`), matching
Python's character-sequence semantics; Python `float` timestamps are modelled
as rationals; filesystem effects (`Path.resolve`, `stat`, reads and writes)
are modelled as explicit parameters or explicit state.
-/

/-! ## Character-level models of the Python string operations used -/

/-- Models Python `s.startswith(p)`: character-level prefix test. -/
def strStartsWith (s p : String) : Bool :=
  p.toList.isPrefixOf s.toList

/-- Models Python `s[n:]`: drop the first `n` characters. -/
def strDrop (s : String) (n : Nat) : String :=
  String.mk (s.toList.drop n)

/-- Models Python `s[:n]`: take the first `n` characters. -/
def strTake (s : String) (n : Nat) : String :=
  String.mk (s.toList.take n)

/-- Models Python `len(s)`: the number of characters. -/
def strLen (s : String) : Nat :=
  s.toList.length

/-- Splits a character list on a separator character; every separator ends a
segment, so `n` separators yield `n+1` (possibly empty) segments, exactly like
Python `s.split(sep)`. The accumulator holds the current segment reversed. -/
def splitSegs (sep : Char) : List Char → List Char → List (List Char)
  | [], acc => [acc.reverse]
  | c :: cs, acc =>
    if c == sep then acc.reverse :: splitSegs sep cs []
    else splitSegs sep cs (c :: acc)

/-- Models Python `s.split(sep)` for a one-character separator. -/
def strSplit (s : String) (sep : Char) : List String :=
  (splitSegs sep s.toList []).map String.mk

/-- Whitespace characters stripped by Python `str.strip()` (ASCII subset:
space, tab, newline, carriage return, vertical tab, form feed). -/
def pyWs (c : Char) : Bool :=
  c == ' ' || c == '\t' || c == '\n' || c == '\r' ||
    c == Char.ofNat 11 || c == Char.ofNat 12

/-- Models Python `s.strip()`. -/
def pyStrip (s : String) : String :=
  String.mk (((s.toList.dropWhile pyWs).reverse.dropWhile pyWs).reverse)

/-- A decidable substring test: `containsSub s sub` holds when `sub` occurs
contiguously inside `s` (used to state that audit entries never contain a
secret path fragment). -/
def containsSub (s sub : List Char) : Bool :=
  (List.range (s.length + 1)).any (fun i => sub.isPrefixOf (s.drop i))

theorem isPrefixOf_length_le {α : Type} [BEq α] :
    ∀ (l1 l2 : List α), l1.isPrefixOf l2 = true → l1.length ≤ l2.length
  | [], _, _ => by simp
  | _ :: _, [], h => by simp [List.isPrefixOf] at h
  | _ :: t, _ :: t2, h => by
    simp only [List.isPrefixOf, Bool.and_eq_true] at h
    have := isPrefixOf_length_le t t2 h.2
    simp only [List.length_cons]
    omega

theorem containsSub_false_of_short (s sub : List Char) (h : s.length < sub.length) :
    containsSub s sub = false := by
  unfold containsSub
  rw [Bool.eq_false_iff]
  intro hany
  rw [List.any_eq_true] at hany
  obtain ⟨i, _, hpre⟩ := hany
  have hle := isPrefixOf_length_le sub (s.drop i) hpre
  have := List.length_drop i s
  omega

/-! ## Embedding of `extensions/fs-sandbox-python/server/helpers.py` -/

namespace FsSandbox

/-- The POSIX path separator `os.sep`. -/
def osSep : String := "/"

/-- The inner loop of `resolve` (helpers.py lines 16-19): walk the AllowList in
order; accept on the first entry whose canonical form equals the path
byte-for-byte or is a prefix of it followed by the separator.  `canon` models
`str(Path(x).expanduser().resolve())`, the external filesystem
canonicalization. -/
def resolveLoop (canon : String → String) (abs_path : String) :
    List String → Except String String
  | [] => .error ("Path not within allowed directories")
  | base :: rest =>
    let base_abs := canon base
    if abs_path == base_abs || strStartsWith abs_path (base_abs ++ osSep) then
      .ok abs_path
    else resolveLoop canon abs_path rest

/-- Embeds `resolve` (helpers.py lines 14-20): canonicalize the requested
path, then scan the AllowList; raising `SandboxError` is modelled as
`Except.error`. -/
def resolve (canon : String → String) (allowed : List String) (requested : String) :
    Except String String :=
  resolveLoop canon (canon requested) allowed

/-- The filesystem as seen by `read_capped`: `stat().st_size` and
`read_bytes()` of an existing regular file. -/
structure FileSys where
  stat_size : String → Nat
  read_bytes : String → List Nat

/-- True exactly on `Except.ok` results. -/
def isOkE {α : Type} : Except String α → Bool
  | .ok _ => true
  | .error _ => false

/-- Embeds `read_capped` (helpers.py lines 22-27): stat first, compute the cap
as `max(1, max_mb) * 1024 * 1024`, reject if the size exceeds the cap, and
only then read the content. -/
def read_capped (fs : FileSys) (p : String) (max_mb : Int) : Except String (List Nat) :=
  let size := fs.stat_size p
  let cap := max 1 max_mb * 1024 * 1024
  if (size : Int) > cap then .error ("File exceeds limit")
  else .ok (fs.read_bytes p)

end FsSandbox

/-! ## Embedding of `extensions/ffprobe-lite-python/server/helpers.py` -/

namespace Ffprobe

/-- Embeds `resolve` (ffprobe helpers.py lines 10-15); its containment logic is
character-for-character the same as the fs-sandbox variant. -/
def resolve (canon : String → String) (allowed : List String) (requested : String) :
    Except String String :=
  FsSandbox.resolveLoop canon (canon requested) allowed

end Ffprobe

/-! ## C1, C3, C5, C9 -/

/-- C1: for every AllowList base `b` and every canonicalized requested path
`p`, `resolve` accepts `p` iff `p` equals the canonical form of some base
byte-for-byte or begins with that canonical form followed immediately by the
path separator; in particular with base `/allowed`, `/allowed/x` is accepted
and `/allowed-evil/x` is rejected. -/
theorem resolve_separator_exact (canon : String → String) (allowed : List String)
    (p : String) (hp : canon p = p) :
    (FsSandbox.isOkE (FsSandbox.resolve canon allowed p)
      = allowed.any (fun b =>
          p == canon b || strStartsWith p (canon b ++ FsSandbox.osSep)))
    ∧ FsSandbox.isOkE (FsSandbox.resolve (fun s => s) ["/allowed"] ("/allowed/x")) = true
    ∧ FsSandbox.isOkE (FsSandbox.resolve (fun s => s) ["/allowed"] ("/allowed-evil/x")) = false := by
  refine ⟨?_, by decide, by decide⟩
  unfold FsSandbox.resolve
  rw [hp]
  induction allowed with
  | nil => rfl
  | cons base rest ih =>
    rw [List.any_cons, FsSandbox.resolveLoop]
    cases hb : (p == canon base || strStartsWith p (canon base ++ FsSandbox.osSep))
    · simp [hb, ih]
    · simp [hb, FsSandbox.isOkE]

/-- Witness for C1 at `canon = id`, base `/allowed`, path `/allowed-evil/x`. -/
theorem resolve_separator_exact_witness :
    (FsSandbox.isOkE (FsSandbox.resolve (fun s => s) ["/allowed"] ("/allowed-evil/x"))
      = ["/allowed"].any (fun b =>
          ("/allowed-evil/x") == (fun s => s) b
            || strStartsWith ("/allowed-evil/x") ((fun s => s) b ++ FsSandbox.osSep)))
    ∧ FsSandbox.isOkE (FsSandbox.resolve (fun s => s) ["/allowed"] ("/allowed/x")) = true
    ∧ FsSandbox.isOkE (FsSandbox.resolve (fun s => s) ["/allowed"] ("/allowed-evil/x")) = false :=
  resolve_separator_exact (fun s => s) ["/allowed"] ("/allowed-evil/x") rfl

/-- C3: with an empty AllowList, both `resolve` variants fail closed: every
requested path yields the outside-sandbox error, never allow-all. -/
theorem resolve_empty_allowlist_fails_closed (canon : String → String) (requested : String) :
    FsSandbox.resolve canon [] requested = .error ("Path not within allowed directories")
    ∧ Ffprobe.resolve canon [] requested = .error ("Path not within allowed directories") :=
  ⟨rfl, rfl⟩

/-- C5: `read_capped` stats the file before loading content; a file of size
exactly the cap is read successfully, while a file of size cap + 1 fails with
the too-large error, and the failing result is independent of the file's
content (the same error results under any `read_bytes`with the same stat). -/
theorem read_capped_ceiling (fs fs2 : FsSandbox.FileSys) (p : String) (m : Int)
    (hstat : fs2.stat_size = fs.stat_size) :
    ((fs.stat_size p : Int) = max 1 m * 1024 * 1024 →
      FsSandbox.read_capped fs p m = .ok (fs.read_bytes p))
    ∧ ((fs.stat_size p : Int) = max 1 m * 1024 * 1024 + 1 →
      FsSandbox.read_capped fs p m = .error ("File exceeds limit")
        ∧ FsSandbox.read_capped fs2 p m = .error ("File exceeds limit")) := by
  constructor
  · intro h
    unfold FsSandbox.read_capped
    rw [if_neg (by omega)]
  · intro h
    constructor
    · unfold FsSandbox.read_capped
      rw [if_pos (by omega)]
    · unfold FsSandbox.read_capped
      rw [hstat, if_pos (by omega)]

/-- A one-file filesystem used by concrete witnesses: `f` has size exactly one
mebibyte, `g` has size one mebibyte plus one byte. -/
def demoFileSys : FsSandbox.FileSys where
  stat_size := fun q => if q == "g" then 1048577 else 1048576
  read_bytes := fun _ => [7]

/-- A filesystem with the same stats as `demoFileSys` but different content. -/
def demoFileSys2 : FsSandbox.FileSys where
  stat_size := fun q => if q == "g" then 1048577 else 1048576
  read_bytes := fun _ => [9]

/-- Witness for C5 with `max_mb = 1`: the at-cap file `f` reads fine and the
over-cap file `g` errors regardless of content. -/
theorem read_capped_ceiling_witness :
    (((demoFileSys.stat_size ("f") : Int) = max 1 1 * 1024 * 1024 →
        FsSandbox.read_capped demoFileSys ("f") 1 = .ok (demoFileSys.read_bytes ("f")))
      ∧ ((demoFileSys.stat_size ("f") : Int) = max 1 1 * 1024 * 1024 + 1 →
        FsSandbox.read_capped demoFileSys ("f") 1 = .error ("File exceeds limit")
          ∧ FsSandbox.read_capped demoFileSys2 ("f") 1 = .error ("File exceeds limit")))
    ∧ (((demoFileSys.stat_size ("g") : Int) = max 1 1 * 1024 * 1024 →
        FsSandbox.read_capped demoFileSys ("g") 1 = .ok (demoFileSys.read_bytes ("g")))
      ∧ ((demoFileSys.stat_size ("g") : Int) = max 1 1 * 1024 * 1024 + 1 →
        FsSandbox.read_capped demoFileSys ("g") 1 = .error ("File exceeds limit")
          ∧ FsSandbox.read_capped demoFileSys2 ("g") 1 = .error ("File exceeds limit"))) :=
  ⟨read_capped_ceiling demoFileSys demoFileSys2 ("f") 1 rfl,
   read_capped_ceiling demoFileSys demoFileSys2 ("g") 1 rfl⟩

/-- C9: the byte ceiling of `read_capped` is `max(1, max_mb) * 1024 * 1024`:
for `max_mb ≤ 0` the effective cap is exactly one mebibyte (so a zero or
negative configuration never rejects all reads), and for `max_mb ≥ 1` the cap
is exactly `max_mb` mebibytes. -/
theorem read_capped_min_cap (fs : FsSandbox.FileSys) (p : String) (m : Int) :
    (m ≤ 0 →
      (FsSandbox.isOkE (FsSandbox.read_capped fs p m) = true ↔ fs.stat_size p ≤ 1048576))
    ∧ (1 ≤ m →
      (FsSandbox.isOkE (FsSandbox.read_capped fs p m) = true
        ↔ (fs.stat_size p : Int) ≤ m * 1048576)) := by
  unfold FsSandbox.read_capped
  constructor
  · intro hm
    have hmax : max 1 m = 1 := max_eq_left (by omega)
    rw [hmax]
    by_cases h : (fs.stat_size p : Int) > 1 * 1024 * 1024
    · rw [if_pos h]
      simp only [FsSandbox.isOkE]
      constructor
      · intro hfalse
        exact absurd hfalse (by decide)
      · intro hle
        omega
    · rw [if_neg h]
      simp only [FsSandbox.isOkE]
      constructor
      · intro _
        omega
      · intro _
        trivial
  · intro hm
    have hmax : max 1 m = m := max_eq_right hm
    rw [hmax]
    by_cases h : (fs.stat_size p : Int) > m * 1024 * 1024
    · rw [if_pos h]
      simp only [FsSandbox.isOkE]
      constructor
      · intro hfalse
        exact absurd hfalse (by decide)
      · intro hle
        omega
    · rw [if_neg h]
      simp only [FsSandbox.isOkE]
      constructor
      · intro _
        omega
      · intro _
        trivial

/-- Witness for C9 at `max_mb = 0` (cap one mebibyte) and, via a second
application, at `max_mb = 8`. -/
theorem read_capped_min_cap_witness :
    ((0 : Int) ≤ 0 →
      (FsSandbox.isOkE (FsSandbox.read_capped demoFileSys ("f") 0) = true
        ↔ demoFileSys.stat_size ("f") ≤ 1048576))
    ∧ ((1 : Int) ≤ 0 →
      (FsSandbox.isOkE (FsSandbox.read_capped demoFileSys ("f") 0) = true
        ↔ (demoFileSys.stat_size ("f") : Int) ≤ 0 * 1048576)) :=
  read_capped_min_cap demoFileSys ("f") 0

/-! ## A model of the standard-library JSON decoder used by `parse_allowed` -/

/-- Modelled from the spec: a decoded Python JSON value, as produced by the
standard-library `json.loads` (including Python's `Infinity`/`NaN`
extensions).  Numeric values keep their source literal. -/
inductive PyJson where
  | null
  | bool (b : Bool)
  | num (lit : String)
  | str (s : String)
  | arr (xs : List PyJson)
  | obj (kvs : List (String × PyJson))

/-- JSON insignificant whitespace (RFC 8259): space, tab, newline, return. -/
def jsonWsChar (c : Char) : Bool :=
  c == ' ' || c == '\t' || c == '\n' || c == '\r'

/-- Drops leading JSON whitespace. -/
def skipWs : List Char → List Char
  | [] => []
  | c :: cs => if jsonWsChar c then skipWs cs else c :: cs

/-- The value of one hexadecimal digit. -/
def hexVal (c : Char) : Option Nat :=
  if c.isDigit then some (c.toNat - 48)
  else if 97 ≤ c.toNat && c.toNat ≤ 102 then some (c.toNat - 87)
  else if 65 ≤ c.toNat && c.toNat ≤ 70 then some (c.toNat - 55)
  else none

/-- The single-character JSON string escapes. -/
def escChar : Char → Option Char
  | 't' => some '\t'
  | 'r' => some '\r'
  | 'n' => some '\n'
  | 'f' => some (Char.ofNat 12)
  | 'b' => some (Char.ofNat 8)
  | '/' => some '/'
  | '\\' => some '\\'
  | '"' => some '"'
  | _ => none

/-- Parses the body of a JSON string after the opening quote, returning the
decoded characters and the rest of the input after the closing quote.
Unescaped control characters are rejected (Python decodes with `strict=True`);
surrogate-pair recombination is not modelled. -/
def parseStrBody : Nat → List Char → Option (List Char × List Char)
  | 0, _ => none
  | _ + 1, [] => none
  | fuel + 1, c :: r =>
    if c == '"' then some ([], r)
    else if c == '\\' then
      match r with
      | 'u' :: h1 :: h2 :: h3 :: h4 :: r2 =>
        match hexVal h1, hexVal h2, hexVal h3, hexVal h4 with
        | some a, some b, some c3, some d =>
          match parseStrBody fuel r2 with
          | some (body, rest) =>
            some (Char.ofNat (((a * 16 + b) * 16 + c3) * 16 + d) :: body, rest)
          | none => none
        | _, _, _, _ => none
      | e :: r2 =>
        match escChar e with
        | some ec =>
          match parseStrBody fuel r2 with
          | some (body, rest) => some (ec :: body, rest)
          | none => none
        | none => none
      | [] => none
    else if c.toNat < 32 then none
    else
      match parseStrBody fuel r with
      | some (body, rest) => some (c :: body, rest)
      | none => none

/-- Longest digit run at the front of the input. -/
def parseDigits (cs : List Char) : List Char × List Char :=
  cs.span Char.isDigit

/-- The JSON integer part: `0`, or a nonzero digit followed by digits (leading
zeros are rejected, as in RFC 8259 and `json.loads`). -/
def parseIntPart : List Char → Option (List Char × List Char)
  | '0' :: r => some (['0'], r)
  | c :: r =>
    if c.isDigit then
      let (ds, rest) := parseDigits r
      some (c :: ds, rest)
    else none
  | [] => none

/-- The optional JSON fraction part `.digits`. -/
def parseFracPart : List Char → Option (List Char × List Char)
  | '.' :: r =>
    let (ds, rest) := parseDigits r
    if ds.isEmpty then none else some ('.' :: ds, rest)
  | cs => some ([], cs)

/-- The optional JSON exponent part `e[+-]digits`. -/
def parseExpPart : List Char → Option (List Char × List Char)
  | c :: r =>
    if c == 'e' || c == 'E' then
      match r with
      | s :: r2 =>
        if s == '+' || s == '-' then
          let (ds, rest) := parseDigits r2
          if ds.isEmpty then none else some (c :: s :: ds, rest)
        else
          let (ds, rest) := parseDigits r
          if ds.isEmpty then none else some (c :: ds, rest)
      | [] => none
    else some ([], c :: r)
  | [] => some ([], [])

/-- A JSON number literal, kept as its source characters. -/
def parseNumber (cs : List Char) : Option (List Char × List Char) :=
  match cs with
  | '-' :: r =>
    match parseIntPart r with
    | none => none
    | some (ip, r1) =>
      match parseFracPart r1 with
      | none => none
      | some (fp, r2) =>
        match parseExpPart r2 with
        | none => none
        | some (ep, r3) => some ('-' :: (ip ++ fp ++ ep), r3)
  | _ =>
    match parseIntPart cs with
    | none => none
    | some (ip, r1) =>
      match parseFracPart r1 with
      | none => none
      | some (fp, r2) =>
        match parseExpPart r2 with
        | none => none
        | some (ep, r3) => some (ip ++ fp ++ ep, r3)

/-- Consumes an exact literal. -/
def parseLit (lit : List Char) (cs : List Char) : Option (List Char) :=
  if lit.isPrefixOf cs then some (cs.drop lit.length) else none

mutual

/-- Parses one JSON value (fuelled; the fuel passed by `json_loads` always
suffices since every other recursion step consumes input). -/
def parseVal : Nat → List Char → Option (PyJson × List Char)
  | 0, _ => none
  | fuel + 1, cs =>
    match skipWs cs with
    | '"' :: r =>
      match parseStrBody (r.length + 1) r with
      | some (body, rest) => some (.str (String.mk body), rest)
      | none => none
    | '[' :: r =>
      match skipWs r with
      | ']' :: rest => some (.arr [], rest)
      | r2 =>
        match parseItems fuel r2 with
        | some (xs, rest) => some (.arr xs, rest)
        | none => none
    | '{' :: r =>
      match skipWs r with
      | '}' :: rest => some (.obj [], rest)
      | r2 =>
        match parseMembers fuel r2 with
        | some (kvs, rest) => some (.obj kvs, rest)
        | none => none
    | cs2 =>
      match parseLit (("null").toList) cs2 with
      | some rest => some (.null, rest)
      | none =>
      match parseLit (("true").toList) cs2 with
      | some rest => some (.bool true, rest)
      | none =>
      match parseLit (("false").toList) cs2 with
      | some rest => some (.bool false, rest)
      | none =>
      match parseLit (("Infinity").toList) cs2 with
      | some rest => some (.num ("Infinity"), rest)
      | none =>
      match parseLit (("-Infinity").toList) cs2 with
      | some rest => some (.num ("-Infinity"), rest)
      | none =>
      match parseLit (("NaN").toList) cs2 with
      | some rest => some (.num ("NaN"), rest)
      | none =>
      match parseNumber cs2 with
      | some (lit, rest) => some (.num (String.mk lit), rest)
      | none => none

/-- Parses the items of a non-empty JSON array up to the closing bracket. -/
def parseItems : Nat → List Char → Option (List PyJson × List Char)
  | 0, _ => none
  | fuel + 1, cs =>
    match parseVal fuel cs with
    | none => none
    | some (v, rest) =>
      match skipWs rest with
      | ',' :: r2 =>
        match parseItems fuel r2 with
        | some (xs, rest2) => some (v :: xs, rest2)
        | none => none
      | ']' :: r2 => some ([v], r2)
      | _ => none

/-- Parses the members of a non-empty JSON object up to the closing brace. -/
def parseMembers : Nat → List Char → Option (List (String × PyJson) × List Char)
  | 0, _ => none
  | fuel + 1, cs =>
    match skipWs cs with
    | '"' :: r =>
      match parseStrBody (r.length + 1) r with
      | none => none
      | some (key, r1) =>
        match skipWs r1 with
        | ':' :: r2 =>
          match parseVal fuel r2 with
          | none => none
          | some (v, r3) =>
            match skipWs r3 with
            | ',' :: r4 =>
              match parseMembers fuel r4 with
              | some (kvs, rest) => some ((String.mk key, v) :: kvs, rest)
              | none => none
            | '}' :: r4 => some ([(String.mk key, v)], r4)
            | _ => none
        | _ => none
    | _ => none

end

/-- Modelled from the spec: the standard-library `json.loads` — parse exactly
one JSON value and require the remaining input to be whitespace. -/
def json_loads (s : String) : Option PyJson :=
  match parseVal (2 * s.toList.length + 2) s.toList with
  | some (v, rest) => if (skipWs rest).isEmpty then some v else none
  | none => none

mutual

/-- Modelled from the spec: Python `str()` on a decoded JSON value, as used by
`[str(x) for x in arr]`.  String values are returned verbatim (the only case
the AllowList contract exercises); scalars use their Python rendering, numbers
their source literal, and containers a recursive rendering. -/
def pyStr : PyJson → String
  | .null => "None"
  | .bool b => if b then ("True") else ("False")
  | .num lit => lit
  | .str s => s
  | .arr xs => "[" ++ pyStrList xs ++ "]"
  | .obj kvs => "\x7b" ++ pyStrObj kvs ++ "\x7d"

/-- Comma-joined rendering of a value list. -/
def pyStrList : List PyJson → String
  | [] => ""
  | [x] => pyStr x
  | x :: xs => pyStr x ++ ", " ++ pyStrList xs

/-- Comma-joined rendering of an object body. -/
def pyStrObj : List (String × PyJson) → String
  | [] => ""
  | [(k, v)] => k ++ ": " ++ pyStr v
  | (k, v) :: kvs => k ++ ": " ++ pyStr v ++ ", " ++ pyStrObj kvs

end

/-- Embeds the shared comma-split fallback
`[s.strip() for s in raw.split(",") if s.strip()]`. -/
def commaSplit (raw : String) : List String :=
  ((strSplit raw ',').map pyStrip).filter (fun x => !(x == ""))

namespace FsSandbox

/-- Embeds `parse_allowed` (fs-sandbox helpers.py lines 6-12): absent or empty
input gives the empty AllowList; a JSON array gives its elements through
Python `str`; every other input — a JSON parse failure or well-formed JSON
that is not an array — falls through to the comma-split. -/
def parse_allowed (raw : Option String) : List String :=
  match raw with
  | none => []
  | some s =>
    if s == "" then []
    else
      match json_loads s with
      | some (.arr xs) => xs.map pyStr
      | _ => commaSplit s

end FsSandbox

namespace Ffprobe

/-- Embeds `parse_allowed` (ffprobe helpers.py lines 4-9): a JSON array is
returned verbatim; any other well-formed JSON yields the EMPTY list (the
`else []` branch inside the `try`); only a JSON parse failure reaches the
comma-split in the `except` handler.  The heterogeneous Python list is typed
as JSON values, comma-split results wrapped as JSON strings. -/
def parse_allowed (raw : Option String) : List PyJson :=
  match raw with
  | none => []
  | some s =>
    if s == "" then []
    else
      match json_loads s with
      | some (.arr xs) => xs
      | some _ => []
      | none => (commaSplit s).map PyJson.str

end Ffprobe


/-! ## C8 -/

/-- Reduction of the fs-sandbox `parse_allowed` on non-empty input. -/
theorem fs_parse_allowed_eq (s : String) (hs : (s == "") = false) :
    FsSandbox.parse_allowed (some s)
      = match json_loads s with
        | some (.arr xs) => xs.map pyStr
        | _ => commaSplit s := by
  unfold FsSandbox.parse_allowed
  simp [hs]

/-- Reduction of the ffprobe-lite `parse_allowed` on non-empty input. -/
theorem ffprobe_parse_allowed_eq (s : String) (hs : (s == "") = false) :
    Ffprobe.parse_allowed (some s)
      = match json_loads s with
        | some (.arr xs) => xs
        | some _ => []
        | none => (commaSplit s).map PyJson.str := by
  unfold Ffprobe.parse_allowed
  simp [hs]

/-- C8 counterexample: the input `true` is well-formed JSON that is not an
array, so the claimed contract demands the comma-split result `["true"]`; the
ffprobe-lite `parse_allowed` instead returns the empty AllowList. -/
theorem parse_allowed_nonarray_cex :
    json_loads ("true") = some (.bool true)
    ∧ commaSplit ("true") = [("true")]
    ∧ Ffprobe.parse_allowed (some ("true")) = []
    ∧ Ffprobe.parse_allowed (some ("true")) ≠ (commaSplit ("true")).map PyJson.str :=
  ⟨rfl, rfl, rfl, fun h => List.noConfusion h⟩

/-- C8 (amended): absent or empty input yields the empty AllowList in both
parser variants; input parsing as a well-formed JSON array is used verbatim
(through Python `str` in the fs-sandbox variant, so literally verbatim for
arrays of strings); in the fs-sandbox variant every other non-empty input —
including well-formed JSON that is not an array — is split on commas with
whitespace trimmed and empty segments discarded, while the ffprobe-lite
variant comma-splits only input that fails to parse as JSON and returns the
empty AllowList for well-formed non-array JSON. -/
theorem parse_allowed_two_branch (s : String) (hs : (s == "") = false) :
    (FsSandbox.parse_allowed none = [] ∧ Ffprobe.parse_allowed none = []
      ∧ FsSandbox.parse_allowed (some ("")) = []
      ∧ Ffprobe.parse_allowed (some ("")) = [])
    ∧ (∀ xs, json_loads s = some (.arr xs) →
        FsSandbox.parse_allowed (some s) = xs.map pyStr
        ∧ Ffprobe.parse_allowed (some s) = xs
        ∧ (∀ ys, xs = ys.map PyJson.str → FsSandbox.parse_allowed (some s) = ys))
    ∧ (∀ v, json_loads s = some v → (∀ xs, v ≠ .arr xs) →
        FsSandbox.parse_allowed (some s) = commaSplit s
        ∧ Ffprobe.parse_allowed (some s) = [])
    ∧ (json_loads s = none →
        FsSandbox.parse_allowed (some s) = commaSplit s
        ∧ Ffprobe.parse_allowed (some s) = (commaSplit s).map PyJson.str) := by
  refine ⟨⟨rfl, rfl, rfl, rfl⟩, ?_, ?_, ?_⟩
  · intro xs hxs
    refine ⟨?_, ?_, ?_⟩
    · rw [fs_parse_allowed_eq s hs, hxs]
    · rw [ffprobe_parse_allowed_eq s hs, hxs]
    · intro ys hys
      rw [fs_parse_allowed_eq s hs, hxs, hys]
      show (ys.map PyJson.str).map pyStr = ys
      rw [List.map_map]
      have hid : (pyStr ∘ PyJson.str) = id := funext (fun t => rfl)
      rw [hid, List.map_id]
  · intro v hv hnotarr
    constructor
    · rw [fs_parse_allowed_eq s hs, hv]
      cases v with
      | arr xs => exact absurd rfl (hnotarr xs)
      | null => rfl
      | bool b => rfl
      | num lit => rfl
      | str t => rfl
      | obj kvs => rfl
    · rw [ffprobe_parse_allowed_eq s hs, hv]
      cases v with
      | arr xs => exact absurd rfl (hnotarr xs)
      | null => rfl
      | bool b => rfl
      | num lit => rfl
      | str t => rfl
      | obj kvs => rfl
  · intro hnone
    constructor
    · rw [fs_parse_allowed_eq s hs, hnone]
    · rw [ffprobe_parse_allowed_eq s hs, hnone]

/-- Witness for C8 on the serialized array `["/a"]`: both parsers take the
array branch and the fs-sandbox result is the element list verbatim. -/
theorem parse_allowed_two_branch_witness :
    FsSandbox.parse_allowed (some ("[\"/a\"]")) = [PyJson.str ("/a")].map pyStr
    ∧ Ffprobe.parse_allowed (some ("[\"/a\"]")) = [PyJson.str ("/a")]
    ∧ (∀ ys, [PyJson.str ("/a")] = ys.map PyJson.str →
        FsSandbox.parse_allowed (some ("[\"/a\"]")) = ys) :=
  (parse_allowed_two_branch ("[\"/a\"]") rfl).2.1 [PyJson.str ("/a")] rfl

/-! ## Embedding of `examples/python-server.py` -/

namespace PyServer

/-- A `pathlib.Path`, as its sequence of components (`Path.parts` without the
root anchor); all paths handled by the server are absolute. -/
abbrev PyPath := List String

/-- Path-string to components, as `pathlib` does at construction: split on the
separator, dropping empty segments and single-dot segments (which `pathlib`
normalizes away) while KEEPING `..` segments (which it does not resolve). -/
def splitParts (s : String) : PyPath :=
  (strSplit s '/').filter (fun seg => !(seg == "") && !(seg == "."))

/-- The `pathlib` `/` operator: an absolute right operand replaces the left
operand entirely. -/
def joinPath (base : PyPath) (rest : String) : PyPath :=
  if strStartsWith rest ("/") then splitParts rest else base ++ splitParts rest

/-- The process environment and the external library calls of the server:
configuration values, `Path.home()`, `Path(s).resolve()` (full filesystem
canonicalization — an external effect), base64 and UTF-8 codecs (`none`
models the library raising), and `hashlib.sha256(...).hexdigest()`. -/
structure Env where
  home : PyPath
  allowed_directories : List String
  max_file_size : Int
  rate_limit : Int
  py_resolve : String → PyPath
  b64decode : String → Option (List Nat)
  b64encode : List Nat → String
  utf8decode : List Nat → Option String
  utf8encode : String → List Nat
  sha256hex : String → String

/-- Embeds `expand_path` (python-server.py lines 53-57).  Note that the `~/`
branch joins `filepath[2:]` onto `Path.home()` WITHOUT calling `.resolve()`,
while every other input goes through full resolution. -/
def expand_path (env : Env) (filepath : String) : PyPath :=
  if strStartsWith filepath ("~/") then joinPath env.home (strDrop filepath 2)
  else env.py_resolve filepath

/-- The containment loop of `validate_path` (lines 66-72): `p.relative_to(b)`
succeeds exactly when the components of `b` are a prefix of the components of
`p` (purely lexical, `..` segments included); the first success returns. -/
def validateLoop (resolved : PyPath) : List PyPath → Option PyPath
  | [] => none
  | a :: rest => if a.isPrefixOf resolved then some resolved else validateLoop resolved rest

/-- Embeds `validate_path` (python-server.py lines 59-74); raising
`PermissionError` is modelled as `Except.error`. -/
def validate_path (env : Env) (requested : String) : Except String PyPath :=
  let resolved := expand_path env requested
  match validateLoop resolved (env.allowed_directories.map (expand_path env)) with
  | some p => .ok p
  | none => .error ("Path outside sandbox")

/-- One step of lexical `..`-collapse over a reversed component stack. -/
def normStep (acc : List String) (seg : String) : List String :=
  if seg == ".." then acc.tail else seg :: acc

/-- The fully resolved (``..``-free) form of a component path, used to state
what full canonicalization of a symlink-free path would produce. -/
def normalize (p : PyPath) : PyPath :=
  (p.foldl normStep []).reverse

/-- Embeds `check_rate_limit` (python-server.py lines 76-90) for one client
identity (the server always passes the fixed id `"default"`): prune timestamps
at or before `now - 60`, reject without storing when the pruned count reaches
the limit (the exception propagates before the store, leaving the stored
window unchanged), otherwise store the pruned window plus `now`. -/
def check_rate_limit (rate_limit : Int) (window : List Rat) (now : Rat) :
    Bool × List Rat :=
  let window_start := now - 60
  let requests := window.filter (fun t => window_start < t)
  if rate_limit ≤ (requests.length : Int) then (false, window)
  else (true, requests ++ [now])

/-- Runs `check_rate_limit` over a sequence of call times, collecting each
admission decision and threading the stored window. -/
def runCalls (rate_limit : Int) : List Rat → List Rat → List Bool × List Rat
  | [], w => ([], w)
  | t :: ts, w =>
    let step := check_rate_limit rate_limit w t
    let rest := runCalls rate_limit ts step.2
    (step.1 :: rest.1, rest.2)

/-- The mutable server state: the process-wide request counter and the rate
window of the default client. -/
structure ServerState where
  request_count : Nat
  rate_limit_window : List Rat

/-- The redaction step of `audit_log` (python-server.py lines 105-113): keep
only `error_code`, and replace a supplied `path` by the first eight characters
of its SHA-256 hex digest under the key `path_hash`; every other field is
dropped. -/
def safe_details (sha256hex : String → String) (details : List (String × String)) :
    List (String × String) :=
  (match details.lookup ("error_code") with
    | some v => [(("error_code"), v)]
    | none => []) ++
  (match details.lookup ("path") with
    | some p => [(("path_hash"), strTake (sha256hex p) 8)]
    | none => [])

/-- One audit record (python-server.py lines 96-102); the wall-clock fields
`timestamp` and `duration_ms` are external readings and carry no claim, so
they are omitted from the model. -/
structure AuditEntry where
  tool : String
  outcome : String
  request_number : Nat
  details : Option (List (String × String))

/-- Embeds `audit_log` (python-server.py lines 92-115): increment the
process-wide counter, stamp it on the entry, and attach redacted details
(a falsy — absent or empty — `details` yields no details field). -/
def audit_log (sha256hex : String → String) (st : ServerState) (tool outcome : String)
    (details : Option (List (String × String))) : ServerState × AuditEntry :=
  let count := st.request_count + 1
  ({ st with request_count := count },
   { tool := tool, outcome := outcome, request_number := count,
     details :=
       match details with
       | none => none
       | some d => if d.isEmpty then none else some (safe_details sha256hex d) })

/-- The filesystem state the server mutates: existing directories and regular
files with their byte content. -/
structure Fs where
  dirs : List PyPath
  files : List (PyPath × List Nat)

/-- All prefixes of a path, root included. -/
def ancestors (p : PyPath) : List PyPath :=
  (List.range (p.length + 1)).map (fun i => p.take i)

/-- Models `safe_path.parent.mkdir(parents=True, exist_ok=True)`: add every
missing ancestor of the parent as a directory. -/
def mkdirParents (fs : Fs) (parent : PyPath) : Fs :=
  { fs with dirs := fs.dirs ++ (ancestors parent).filter (fun d => !(fs.dirs.contains d)) }

/-- Models `write_text`/`write_bytes`: replace or create the file. -/
def writeFile (fs : Fs) (p : PyPath) (content : List Nat) : Fs :=
  { fs with files := (p, content) :: fs.files.filter (fun kv => !(kv.1 == p)) }

/-- The immediate children of a directory with their kind, as `iterdir`
reports them (directories first in the model; the claims are order-free). -/
def childrenOf (fs : Fs) (p : PyPath) : List (String × String) :=
  (fs.dirs.filter (fun d => d.dropLast == p && !(d.isEmpty))).map
      (fun d => (d.getLastD (""), ("directory")))
    ++ (fs.files.filter (fun kv => kv.1.dropLast == p && !(kv.1.isEmpty))).map
      (fun kv => (kv.1.getLastD (""), ("file")))

/-- The decoded `arguments` dict of a tool call. -/
structure RawArgs where
  path : Option String
  content : Option String
  encoding : Option String

/-- Pydantic validation of `ReadFileParams`: `path` required with
`max_length=4096`, `encoding` defaulting to `utf8` and limited to
`utf8|base64`; failure raises `ValidationError`. -/
def parseReadParams (a : RawArgs) : Except String (String × String) :=
  match a.path with
  | none => .error ("ValidationError")
  | some p =>
    if 4096 < strLen p then .error ("ValidationError")
    else
      let enc := a.encoding.getD ("utf8")
      if enc == "utf8" || enc == "base64" then .ok (p, enc)
      else .error ("ValidationError")

/-- Pydantic validation of `WriteFileParams`: additionally `content` required
with a ten-mebibyte character bound. -/
def parseWriteParams (a : RawArgs) : Except String (String × String × String) :=
  match a.path with
  | none => .error ("ValidationError")
  | some p =>
    if 4096 < strLen p then .error ("ValidationError")
    else
      match a.content with
      | none => .error ("ValidationError")
      | some c =>
        if 10 * 1024 * 1024 < strLen c then .error ("ValidationError")
        else
          let enc := a.encoding.getD ("utf8")
          if enc == "utf8" || enc == "base64" then .ok (p, c, enc)
          else .error ("ValidationError")

/-- Pydantic validation of `ListDirectoryParams`. -/
def parseListParams (a : RawArgs) : Except String String :=
  match a.path with
  | none => .error ("ValidationError")
  | some p =>
    if 4096 < strLen p then .error ("ValidationError")
    else .ok p

/-- The `health_check` response payload (the payload text carries no claim;
it is rendered abbreviated). -/
def healthText : String := "status ok version 1.0.0"

/-- The `capabilities` response payload, likewise abbreviated. -/
def capabilitiesText : String := "tools prompts limits"

/-- Rendering of a directory listing (abbreviated stand-in for
`json.dumps(items)`). -/
def renderItems (items : List (String × String)) : String :=
  String.intercalate (", ") (items.map (fun it => it.1 ++ (":") ++ it.2))

/-- The outcome of the `try`-block body of `handle_call_tool`: a success
carries the state at return (the audit entry already recorded inside the
branch); an exception carries the state AT THE RAISE (side effects before the
raise persist) and the exception class name. -/
inductive BodyResult where
  | ok (st : ServerState) (fs : Fs) (text : String) (entry : AuditEntry)
  | exn (st : ServerState) (fs : Fs) (exnName : String)

/-- Embeds the `try`-block of `handle_call_tool` (python-server.py lines
203-299): rate limit first, then dispatch on the tool name, with each branch
validating arguments, validating the path, performing I/O and recording its
success audit; every raise is modelled as `BodyResult.exn` with the Python
exception class name. -/
def tool_body (env : Env) (st0 : ServerState) (fs : Fs) (now : Rat)
    (name : String) (args : RawArgs) : BodyResult :=
  let rl := check_rate_limit env.rate_limit st0.rate_limit_window now
  if !rl.1 then .exn st0 fs ("Exception")
  else
    let st := { st0 with rate_limit_window := rl.2 }
    if name == "health_check" then
      let ae := audit_log env.sha256hex st ("health_check") ("success") none
      .ok ae.1 fs healthText ae.2
    else if name == "capabilities" then
      let ae := audit_log env.sha256hex st ("capabilities") ("success") none
      .ok ae.1 fs capabilitiesText ae.2
    else if name == "read_file_sandboxed" then
      match parseReadParams args with
      | .error c => .exn st fs c
      | .ok (path, enc) =>
        match validate_path env path with
        | .error _ => .exn st fs ("PermissionError")
        | .ok safe_path =>
          match fs.files.lookup safe_path with
          | none => .exn st fs ("FileNotFoundError")
          | some bytes =>
            if env.max_file_size < (bytes.length : Int) then .exn st fs ("ValueError")
            else if enc == "utf8" then
              match env.utf8decode bytes with
              | none => .exn st fs ("UnicodeDecodeError")
              | some text =>
                let ae := audit_log env.sha256hex st ("read_file_sandboxed") ("success")
                  (some [(("path"), path)])
                .ok ae.1 fs text ae.2
            else
              let ae := audit_log env.sha256hex st ("read_file_sandboxed") ("success")
                (some [(("path"), path)])
              .ok ae.1 fs (env.b64encode bytes) ae.2
    else if name == "write_file_sandboxed" then
      match parseWriteParams args with
      | .error c => .exn st fs c
      | .ok (path, content, enc) =>
        match validate_path env path with
        | .error _ => .exn st fs ("PermissionError")
        | .ok safe_path =>
          let fs1 := mkdirParents fs safe_path.dropLast
          if enc == "utf8" then
            let fs2 := writeFile fs1 safe_path (env.utf8encode content)
            let ae := audit_log env.sha256hex st ("write_file_sandboxed") ("success")
              (some [(("path"), path)])
            .ok ae.1 fs2 (("File written successfully: ") ++ path) ae.2
          else
            match env.b64decode content with
            | none => .exn st fs1 ("Error")
            | some bytes =>
              let fs2 := writeFile fs1 safe_path bytes
              let ae := audit_log env.sha256hex st ("write_file_sandboxed") ("success")
                (some [(("path"), path)])
              .ok ae.1 fs2 (("File written successfully: ") ++ path) ae.2
    else if name == "list_directory" then
      match parseListParams args with
      | .error c => .exn st fs c
      | .ok path =>
        match validate_path env path with
        | .error _ => .exn st fs ("PermissionError")
        | .ok safe_path =>
          if !(fs.dirs.contains safe_path) then .exn st fs ("ValueError")
          else
            let ae := audit_log env.sha256hex st ("list_directory") ("success")
              (some [(("path"), path)])
            .ok ae.1 fs (renderItems (childrenOf fs safe_path)) ae.2
    else .exn st fs ("ValueError")

/-- Embeds `handle_call_tool` (python-server.py lines 200-306): run the body;
on any exception, record the error audit with the exception class name and
return a structured error text instead of propagating. -/
def handle_call_tool (env : Env) (st : ServerState) (fs : Fs) (now : Rat)
    (name : String) (args : RawArgs) : ServerState × Fs × String × List AuditEntry :=
  match tool_body env st fs now name args with
  | .ok st2 fs2 text entry => (st2, fs2, text, [entry])
  | .exn st2 fs2 c =>
    let ae := audit_log env.sha256hex st2 name ("error") (some [(("error_code"), c)])
    (ae.1, fs2, ("Error: ") ++ c, [ae.2])

end PyServer

/-! ## C2 -/

/-- A concrete environment: home `/home/user`, AllowList `["~/Desktop"]`, and
a symlink-free filesystem with root working directory, under which
`Path(s).resolve()` is exactly lexical `..`-collapse of the components. -/
def demoEnv : PyServer.Env where
  home := [("home"), ("user")]
  allowed_directories := [("~/Desktop")]
  max_file_size := 104857600
  rate_limit := 60
  py_resolve := fun s => PyServer.normalize (PyServer.splitParts s)
  b64decode := fun _ => none
  b64encode := fun _ => ""
  utf8decode := fun _ => none
  utf8encode := fun _ => []
  sha256hex := fun _ => ""

/-- C2 fails on the code: with AllowList `["~/Desktop"]` and home
`/home/user`, the request `~/Desktop/../../etc/passwd` is ACCEPTED by
`validate_path` — the `~/` branch of `expand_path` skips `.resolve()`, the
`..` segments survive, and the lexical `relative_to` prefix check passes —
even though its fully resolved form `/home/etc/passwd` lies outside every
AllowList entry, where the claim requires an outside-sandbox error. -/
theorem validate_path_tilde_dotdot_escape :
    PyServer.validate_path demoEnv ("~/Desktop/../../etc/passwd")
      = .ok [("home"), ("user"), ("Desktop"), (".."), (".."), ("etc"), ("passwd")]
    ∧ PyServer.normalize
        [("home"), ("user"), ("Desktop"), (".."), (".."), ("etc"), ("passwd")]
      = [("home"), ("etc"), ("passwd")]
    ∧ (demoEnv.allowed_directories.map (PyServer.expand_path demoEnv)).all
        (fun a => !(a.isPrefixOf (PyServer.normalize
          [("home"), ("user"), ("Desktop"), (".."), (".."), ("etc"), ("passwd")])))
      = true :=
  ⟨rfl, rfl, rfl⟩

/-! ## C4 -/

/-- The pruned window: the timestamps strictly newer than `now - 60`. -/
def prunedWindow (w : List Rat) (now : Rat) : List Rat :=
  w.filter (fun t => now - 60 < t)

/-- Defining equation of `check_rate_limit` through `prunedWindow`. -/
theorem check_rate_limit_eq (N : Int) (w : List Rat) (now : Rat) :
    PyServer.check_rate_limit N w now
      = if N ≤ ((prunedWindow w now).length : Int) then (false, w)
        else (true, prunedWindow w now ++ [now]) :=
  rfl

/-- When every stored timestamp lies in an open window of length sixty ending
after `t`, pruning at `t` keeps everything. -/
theorem prunedWindow_all (w : List Rat) (a t : Rat)
    (hw : ∀ s ∈ w, a < s) (ht : t < a + 60) : prunedWindow w t = w := by
  unfold prunedWindow
  apply List.filter_eq_self.mpr
  intro s hs
  have h1 := hw s hs
  simp only [decide_eq_true_eq]
  linarith

/-- When sixty seconds have passed since every stored timestamp, pruning at
`t` empties the window. -/
theorem prunedWindow_empty (w : List Rat) (t : Rat)
    (hw : ∀ s ∈ w, s + 60 ≤ t) : prunedWindow w t = [] := by
  unfold prunedWindow
  rw [List.filter_eq_nil_iff]
  intro s hs
  have h1 := hw s hs
  simp only [decide_eq_true_eq, not_lt]
  linarith

/-- Splitting a call sequence splits `runCalls`. -/
theorem runCalls_append (N : Int) (xs ys : List Rat) (w : List Rat) :
    PyServer.runCalls N (xs ++ ys) w
      = ((PyServer.runCalls N xs w).1
            ++ (PyServer.runCalls N ys (PyServer.runCalls N xs w).2).1,
         (PyServer.runCalls N ys (PyServer.runCalls N xs w).2).2) := by
  induction xs generalizing w with
  | nil => simp [PyServer.runCalls]
  | cons t ts ih => simp [PyServer.runCalls, ih]

/-- As long as capacity remains and all timestamps fit inside one open
sixty-second window, every call is admitted and appended in order. -/
theorem runCalls_admits (N : Int) (a : Rat) :
    ∀ (ts w : List Rat),
      (∀ s ∈ w, a < s ∧ s < a + 60) → (∀ s ∈ ts, a < s ∧ s < a + 60) →
      ((w.length : Int) + ts.length ≤ N) →
      PyServer.runCalls N ts w = (List.replicate ts.length true, w ++ ts) := by
  intro ts
  induction ts with
  | nil =>
    intro w _ _ _
    simp [PyServer.runCalls]
  | cons t ts ih =>
    intro w hw hts hlen
    have hta := hts t (List.mem_cons_self t ts)
    have hfil : prunedWindow w t = w :=
      prunedWindow_all w a t (fun s hs => (hw s hs).1) hta.2
    have hlt : ¬ (N ≤ (w.length : Int)) := by
      simp only [List.length_cons] at hlen
      push_cast at hlen ⊢
      omega
    unfold PyServer.runCalls
    rw [check_rate_limit_eq, hfil, if_neg hlt]
    have hrec := ih (w ++ [t])
      (by
        intro s hs
        rcases List.mem_append.mp hs with h | h
        · exact hw s h
        · rw [List.mem_singleton.mp h]
          exact hta)
      (fun s hs => hts s (List.mem_cons_of_mem t hs))
      (by
        simp only [List.length_append, List.length_singleton, List.length_nil,
          List.length_cons] at hlen ⊢
        push_cast at hlen ⊢
        omega)
    simp only [hrec, List.length_cons, List.replicate_succ, List.append_assoc,
      List.singleton_append]

/-- C4: each admission check of `check_rate_limit` prunes timestamps older
than sixty seconds before `now`, admits and appends exactly when the pruned
count is strictly below the limit, and leaves the stored window unchanged on
rejection; consequently, starting from an empty window, `N` calls inside one
sixty-second span are all admitted, the `(N+1)`-th call inside the span is
rejected without being recorded, and once the window has fully elapsed the
same client is admitted again. -/
theorem rate_limit_window_spec (N : Int) (hN : 1 ≤ N) (a : Rat)
    (ts : List Rat) (tL : Rat) (hlen : (ts.length : Int) = N)
    (hts : ∀ s ∈ ts ++ [tL], a < s ∧ s < a + 60)
    (t2 : Rat) (ht2 : ∀ s ∈ ts, s + 60 ≤ t2) :
    (∀ (w : List Rat) (now : Rat),
        (PyServer.check_rate_limit N w now).1
          = decide (((prunedWindow w now).length : Int) < N)
        ∧ ((PyServer.check_rate_limit N w now).1 = true →
            (PyServer.check_rate_limit N w now).2 = prunedWindow w now ++ [now])
        ∧ ((PyServer.check_rate_limit N w now).1 = false →
            (PyServer.check_rate_limit N w now).2 = w))
    ∧ PyServer.runCalls N (ts ++ [tL]) []
        = (List.replicate ts.length true ++ [false], ts)
    ∧ (PyServer.check_rate_limit N ts t2).1 = true := by
  have htsl : ∀ s ∈ ts, a < s ∧ s < a + 60 :=
    fun s hs => hts s (List.mem_append_left _ hs)
  have htL : a < tL ∧ tL < a + 60 :=
    hts tL (List.mem_append_right _ (List.mem_singleton_self tL))
  refine ⟨?_, ?_, ?_⟩
  · intro w now
    rw [check_rate_limit_eq]
    by_cases h : N ≤ ((prunedWindow w now).length : Int)
    · rw [if_pos h]
      refine ⟨?_, ?_, fun _ => rfl⟩
      · simp [not_lt.mpr h]
      · intro hc
        exact absurd hc (by simp)
    · rw [if_neg h]
      refine ⟨?_, fun _ => rfl, ?_⟩
      · simp [lt_of_not_le h]
      · intro hc
        exact absurd hc (by simp)
  · rw [runCalls_append]
    have h1 : PyServer.runCalls N ts [] = (List.replicate ts.length true, ts) := by
      have := runCalls_admits N a ts [] (by simp) htsl (by simp [hlen])
      simpa using this
    rw [h1]
    have hfil : prunedWindow ts tL = ts :=
      prunedWindow_all ts a tL (fun s hs => (htsl s hs).1) htL.2
    have hrej : PyServer.runCalls N [tL] ts = ([false], ts) := by
      unfold PyServer.runCalls
      rw [check_rate_limit_eq, hfil, if_pos (by omega)]
      simp [PyServer.runCalls]
    rw [hrej]
  · rw [check_rate_limit_eq, prunedWindow_empty ts t2 ht2]
    rw [if_neg (by simpa using hN)]

/-- Witness for C4 at limit 1: calls at times 1 and 3/2 give one admission
and one rejection leaving the window `[1]`, and a call at time 100 is
admitted again. -/
theorem rate_limit_window_spec_witness :
    PyServer.runCalls 1 ([(1 : Rat)] ++ [(3/2 : Rat)]) []
        = (List.replicate 1 true ++ [false], [(1 : Rat)])
    ∧ (PyServer.check_rate_limit 1 [(1 : Rat)] 100).1 = true :=
  (rate_limit_window_spec 1 (by norm_num) 0 [(1 : Rat)] (3/2) (by norm_num)
    (by
      intro s hs
      simp only [List.cons_append, List.nil_append, List.mem_cons,
        List.mem_singleton, List.not_mem_nil, or_false] at hs
      rcases hs with h | h <;> subst h <;> constructor <;> norm_num)
    100
    (by
      intro s hs
      rw [List.mem_singleton] at hs
      subst hs
      norm_num)).2

/-! ## C6 -/

/-- A sixty-four character hex digest, standing in for a concrete SHA-256
output in witnesses. -/
def hashConst : String → String :=
  fun _ => "0123456789abcdef0123456789abcdef0123456789abcdef0123456789abcdef"

/-- A details map carrying a sensitive path plus a field outside the closed
set. -/
def dDemo : List (String × String) :=
  [(("path"), ("/allowed/secret.txt")), (("user"), ("bob"))]

/-- A concrete environment whose AllowList is `["/allowed"]`, for exercising a
failed sandboxed read. -/
def demoEnvRead : PyServer.Env where
  home := [("home"), ("user")]
  allowed_directories := [("/allowed")]
  max_file_size := 104857600
  rate_limit := 60
  py_resolve := fun s => PyServer.normalize (PyServer.splitParts s)
  b64decode := fun _ => none
  b64encode := fun _ => ""
  utf8decode := fun _ => none
  utf8encode := fun _ => []
  sha256hex := fun _ => ""

/-- Every string field occurring in an audit entry (the remaining fields are
numeric). -/
def entryStrings (e : PyServer.AuditEntry) : List String :=
  [e.tool, e.outcome] ++ (e.details.getD []).map Prod.fst
    ++ (e.details.getD []).map Prod.snd

/-- C6: redacted audit details contain at most the keys `error_code` and
`path_hash`; every other supplied field is dropped silently; a supplied path
is never stored verbatim but replaced by the eight-character prefix of its
hash (too short to contain `secret.txt`); and the concrete audit entry for a
failed read of `/allowed/secret.txt` carries only the error class name, no
string of it containing `secret.txt`. -/
theorem audit_redaction (h : String → String) (hlen : ∀ s, strLen (h s) = 64)
    (d : List (String × String)) :
    (∀ kv ∈ PyServer.safe_details h d,
        kv.1 = ("error_code") ∨ kv.1 = ("path_hash"))
    ∧ (∀ k, ¬(k = ("error_code")) → ¬(k = ("path_hash")) →
        (PyServer.safe_details h d).lookup k = none)
    ∧ (∀ p, d.lookup ("path") = some p →
        (PyServer.safe_details h d).lookup ("path_hash") = some (strTake (h p) 8)
        ∧ strLen (strTake (h p) 8) = 8
        ∧ containsSub (strTake (h p) 8).toList (("secret.txt").toList) = false)
    ∧ (∀ c, PyServer.safe_details h [(("error_code"), c)] = [(("error_code"), c)])
    ∧ (PyServer.handle_call_tool { demoEnvRead with sha256hex := h } ⟨0, []⟩ ⟨[], []⟩ 0
          ("read_file_sandboxed") ⟨some ("/allowed/secret.txt"), none, none⟩).2.2.2.map
        entryStrings
      = [[("read_file_sandboxed"), ("error"), ("error_code"), ("FileNotFoundError")]]
    ∧ ([("read_file_sandboxed"), ("error"), ("error_code"), ("FileNotFoundError")]).all
        (fun s => !(containsSub s.toList (("secret.txt").toList))) = true := by
  have htake : ∀ p, strLen (strTake (h p) 8) = 8 := by
    intro p
    have hp := hlen p
    unfold strLen strTake
    unfold strLen at hp
    simp only [String.toList]
    rw [List.length_take]
    simp only [String.toList] at hp
    omega
  refine ⟨?_, ?_, ?_, ?_, rfl, by decide⟩
  · intro kv hkv
    unfold PyServer.safe_details at hkv
    rcases hec : d.lookup ("error_code") with _ | v <;>
      rcases hp : d.lookup ("path") with _ | p <;>
      rw [hec, hp] at hkv <;> simp at hkv
    · rw [hkv]
      right
      rfl
    · rw [hkv]
      left
      rfl
    · rcases hkv with hkv | hkv <;> rw [hkv]
      · left
        rfl
      · right
        rfl
  · intro k hk1 hk2
    have b1 : (k == ("error_code")) = false := by
      rw [beq_eq_false_iff_ne]
      exact hk1
    have b2 : (k == ("path_hash")) = false := by
      rw [beq_eq_false_iff_ne]
      exact hk2
    unfold PyServer.safe_details
    rcases d.lookup ("error_code") with _ | v <;>
      rcases d.lookup ("path") with _ | p <;>
      simp [List.lookup, b1, b2]
  · intro p hp
    refine ⟨?_, htake p, ?_⟩
    · unfold PyServer.safe_details
      rw [hp]
      rcases d.lookup ("error_code") with _ | v <;> simp [List.lookup]
    · apply containsSub_false_of_short
      have h8 := htake p
      unfold strLen at h8
      simp only [String.toList] at h8 ⊢
      rw [h8]
      decide
  · intro c
    unfold PyServer.safe_details
    rfl

/-- Witness for C6: the hash-prefix consequence at the supplied details
`dDemo` under the constant digest `hashConst`. -/
theorem audit_redaction_witness :
    (PyServer.safe_details hashConst dDemo).lookup ("path_hash")
        = some (strTake (hashConst ("/allowed/secret.txt")) 8)
    ∧ strLen (strTake (hashConst ("/allowed/secret.txt")) 8) = 8
    ∧ containsSub (strTake (hashConst ("/allowed/secret.txt")) 8).toList
        (("secret.txt").toList) = false :=
  (audit_redaction hashConst (fun _ => rfl) dDemo).2.2.1 ("/allowed/secret.txt") rfl

/-! ## C7 -/

/-- Branch analysis of `tool_body`: every success branch carries exactly the
audit-incremented state and an entry stamped with the new counter value; every
exception leaves the counter untouched (only the facade audits it). -/
theorem tool_body_request_count (env : PyServer.Env) (st : PyServer.ServerState)
    (fs : PyServer.Fs) (now : Rat) (name : String) (args : PyServer.RawArgs) :
    (∀ st2 fs2 text entry,
        PyServer.tool_body env st fs now name args = .ok st2 fs2 text entry →
      st2.request_count = st.request_count + 1
        ∧ entry.request_number = st.request_count + 1)
    ∧ (∀ st2 fs2 c,
        PyServer.tool_body env st fs now name args = .exn st2 fs2 c →
      st2.request_count = st.request_count) := by
  constructor
  · intro st2 fs2 text entry h
    simp only [PyServer.tool_body] at h
    repeat' split at h
    all_goals first
      | exact PyServer.BodyResult.noConfusion h
      | (cases h; exact ⟨rfl, rfl⟩)
  · intro st2 fs2 c h
    simp only [PyServer.tool_body] at h
    repeat' split at h
    all_goals first
      | exact PyServer.BodyResult.noConfusion h
      | (cases h; rfl)

/-- C7: every invocation of the dispatcher returns a structured result with
exactly one audit entry emitted — on success and on every caught error alike —
the process-wide counter advances by exactly one, the entry is stamped with
the new counter value, and a caught exception is returned as a structured
error text rather than propagated. -/
theorem handle_call_tool_audits_once (env : PyServer.Env) (st : PyServer.ServerState)
    (fs : PyServer.Fs) (now : Rat) (name : String) (args : PyServer.RawArgs) :
    ((PyServer.handle_call_tool env st fs now name args).2.2.2).length = 1
    ∧ (PyServer.handle_call_tool env st fs now name args).1.request_count
        = st.request_count + 1
    ∧ (∀ e ∈ (PyServer.handle_call_tool env st fs now name args).2.2.2,
        e.request_number = st.request_count + 1)
    ∧ (∀ st2 fs2 c, PyServer.tool_body env st fs now name args = .exn st2 fs2 c →
        (PyServer.handle_call_tool env st fs now name args).2.2.1
          = ("Error: ") ++ c) := by
  have h := tool_body_request_count env st fs now name args
  unfold PyServer.handle_call_tool
  cases htb : PyServer.tool_body env st fs now name args with
  | ok st2 fs2 text entry =>
    obtain ⟨h1, h2⟩ := h.1 st2 fs2 text entry htb
    refine ⟨rfl, h1, ?_, ?_⟩
    · intro e he
      rw [List.mem_singleton.mp he]
      exact h2
    · intro st3 fs3 c hc
      exact PyServer.BodyResult.noConfusion hc
  | exn st2 fs2 c =>
    have h1 := h.2 st2 fs2 c htb
    refine ⟨rfl, ?_, ?_, ?_⟩
    · show (PyServer.audit_log env.sha256hex st2 name ("error")
        (some [(("error_code"), c)])).1.request_count = st.request_count + 1
      unfold PyServer.audit_log
      simpa using h1
    · intro e he
      rw [List.mem_singleton.mp he]
      show (PyServer.audit_log env.sha256hex st2 name ("error")
        (some [(("error_code"), c)])).2.request_number = st.request_count + 1
      unfold PyServer.audit_log
      simpa using h1
    · intro st3 fs3 c2 hc
      cases hc
      rfl

/-- Witness for C7 at a concrete `health_check` invocation from a fresh
state. -/
theorem handle_call_tool_audits_once_witness :
    ((PyServer.handle_call_tool demoEnv ⟨0, []⟩ ⟨[], []⟩ 0 ("health_check")
        ⟨none, none, none⟩).2.2.2).length = 1
    ∧ (PyServer.handle_call_tool demoEnv ⟨0, []⟩ ⟨[], []⟩ 0 ("health_check")
        ⟨none, none, none⟩).1.request_count = (0 : Nat) + 1
    ∧ (∀ e ∈ (PyServer.handle_call_tool demoEnv ⟨0, []⟩ ⟨[], []⟩ 0 ("health_check")
        ⟨none, none, none⟩).2.2.2, e.request_number = (0 : Nat) + 1)
    ∧ (∀ st2 fs2 c, PyServer.tool_body demoEnv ⟨0, []⟩ ⟨[], []⟩ 0 ("health_check")
          ⟨none, none, none⟩ = .exn st2 fs2 c →
        (PyServer.handle_call_tool demoEnv ⟨0, []⟩ ⟨[], []⟩ 0 ("health_check")
          ⟨none, none, none⟩).2.2.1 = ("Error: ") ++ c) :=
  handle_call_tool_audits_once demoEnv ⟨0, []⟩ ⟨[], []⟩ 0 ("health_check")
    ⟨none, none, none⟩

/-! ## C10 -/

/-- C10: in the sandboxed write, parent directories are created BEFORE the
content is decoded, so when base64 decoding fails the call returns a
structured error with no file written, yet the directories created for the
target remain — the filesystem is not rolled back. -/
theorem write_decode_failure_keeps_dirs (env : PyServer.Env)
    (st : PyServer.ServerState) (fs : PyServer.Fs) (now : Rat)
    (path content : String) (safe : PyServer.PyPath)
    (hrateok : (PyServer.check_rate_limit env.rate_limit st.rate_limit_window now).1
      = true)
    (hplen : strLen path ≤ 4096) (hclen : strLen content ≤ 10 * 1024 * 1024)
    (hval : PyServer.validate_path env path = .ok safe)
    (hdec : env.b64decode content = none) :
    (PyServer.handle_call_tool env st fs now ("write_file_sandboxed")
        ⟨some path, some content, some ("base64")⟩).2.1
      = PyServer.mkdirParents fs safe.dropLast
    ∧ (PyServer.mkdirParents fs safe.dropLast).files = fs.files
    ∧ (∀ dpath ∈ PyServer.ancestors safe.dropLast,
        dpath ∈ (PyServer.mkdirParents fs safe.dropLast).dirs)
    ∧ (PyServer.handle_call_tool env st fs now ("write_file_sandboxed")
        ⟨some path, some content, some ("base64")⟩).2.2.1
      = ("Error: ") ++ ("Error")
    ∧ ((PyServer.handle_call_tool env st fs now ("write_file_sandboxed")
        ⟨some path, some content, some ("base64")⟩).2.2.2).map
          (fun e => e.outcome)
      = [("error")] := by
  have hparams : PyServer.parseWriteParams ⟨some path, some content, some ("base64")⟩
      = .ok (path, content, ("base64")) := by
    simp only [PyServer.parseWriteParams]
    rw [if_neg (not_lt.mpr hplen), if_neg (not_lt.mpr hclen)]
    rfl
  have hbody : PyServer.tool_body env st fs now ("write_file_sandboxed")
      ⟨some path, some content, some ("base64")⟩
      = .exn { st with rate_limit_window :=
          (PyServer.check_rate_limit env.rate_limit st.rate_limit_window now).2 }
        (PyServer.mkdirParents fs safe.dropLast) ("Error") := by
    simp only [PyServer.tool_body, hrateok, Bool.not_true, Bool.false_eq_true,
      if_false, hparams, hval, hdec]
    rfl
  have hfacade : PyServer.handle_call_tool env st fs now ("write_file_sandboxed")
      ⟨some path, some content, some ("base64")⟩
      = ((PyServer.audit_log env.sha256hex
            { st with rate_limit_window :=
              (PyServer.check_rate_limit env.rate_limit st.rate_limit_window now).2 }
            ("write_file_sandboxed") ("error") (some [(("error_code"), ("Error"))])).1,
         PyServer.mkdirParents fs safe.dropLast,
         ("Error: ") ++ ("Error"),
         [(PyServer.audit_log env.sha256hex
            { st with rate_limit_window :=
              (PyServer.check_rate_limit env.rate_limit st.rate_limit_window now).2 }
            ("write_file_sandboxed") ("error")
            (some [(("error_code"), ("Error"))])).2]) := by
    unfold PyServer.handle_call_tool
    rw [hbody]
  refine ⟨?_, rfl, ?_, ?_, ?_⟩
  · rw [hfacade]
  · intro dpath hdp
    unfold PyServer.mkdirParents
    simp only [List.mem_append]
    by_cases hd : dpath ∈ fs.dirs
    · exact Or.inl hd
    · right
      rw [List.mem_filter]
      refine ⟨hdp, ?_⟩
      simp [List.contains, hd]
  · rw [hfacade]
  · rw [hfacade]
    rfl

/-- A concrete environment with AllowList `["/s"]` whose base64 decoder always
fails (standing for content with invalid padding). -/
def demoEnvW : PyServer.Env where
  home := [("home"), ("user")]
  allowed_directories := [("/s")]
  max_file_size := 104857600
  rate_limit := 60
  py_resolve := fun s => PyServer.normalize (PyServer.splitParts s)
  b64decode := fun _ => none
  b64encode := fun _ => ""
  utf8decode := fun _ => none
  utf8encode := fun _ => []
  sha256hex := fun _ => ""

/-- Witness for C10: writing `/s/a/b.txt` with undecodable base64 content
into a filesystem holding only the root directory errors out, writes no file,
and leaves the freshly created directories `/s` and `/s/a` behind. -/
theorem write_decode_failure_keeps_dirs_witness :
    ((PyServer.handle_call_tool demoEnvW ⟨0, []⟩ ⟨[[]], []⟩ 0 ("write_file_sandboxed")
        ⟨some ("/s/a/b.txt"), some ("x"), some ("base64")⟩).2.1
      = PyServer.mkdirParents ⟨[[]], []⟩ ([("s"), ("a"), ("b.txt")] : PyServer.PyPath).dropLast
    ∧ (PyServer.mkdirParents ⟨[[]], []⟩
        ([("s"), ("a"), ("b.txt")] : PyServer.PyPath).dropLast).files
      = (PyServer.Fs.mk [[]] []).files
    ∧ (∀ dpath ∈ PyServer.ancestors ([("s"), ("a"), ("b.txt")] : PyServer.PyPath).dropLast,
        dpath ∈ (PyServer.mkdirParents ⟨[[]], []⟩
          ([("s"), ("a"), ("b.txt")] : PyServer.PyPath).dropLast).dirs)
    ∧ (PyServer.handle_call_tool demoEnvW ⟨0, []⟩ ⟨[[]], []⟩ 0 ("write_file_sandboxed")
        ⟨some ("/s/a/b.txt"), some ("x"), some ("base64")⟩).2.2.1
      = ("Error: ") ++ ("Error")
    ∧ ((PyServer.handle_call_tool demoEnvW ⟨0, []⟩ ⟨[[]], []⟩ 0 ("write_file_sandboxed")
        ⟨some ("/s/a/b.txt"), some ("x"), some ("base64")⟩).2.2.2).map
          (fun e => e.outcome)
      = [("error")])
    ∧ (PyServer.handle_call_tool demoEnvW ⟨0, []⟩ ⟨[[]], []⟩ 0 ("write_file_sandboxed")
        ⟨some ("/s/a/b.txt"), some ("x"), some ("base64")⟩).2.1.dirs
      = [[], [("s")], [("s"), ("a")]] :=
  ⟨write_decode_failure_keeps_dirs demoEnvW ⟨0, []⟩ ⟨[[]], []⟩ 0 ("/s/a/b.txt") ("x")
      [("s"), ("a"), ("b.txt")] rfl (by decide) (by decide) rfl rfl,
   by decide⟩
